import Mathlib

/-!
Verification development for the darwinup overlay engine (Depot.cpp).

The embedding follows `src/unnamed/part_001` (Depot.cpp).  `File.cpp`,
`Archive.h` and `File.h` are not part of the sources; the pieces of them
that the Depot code relies on (the info-flag bitset, `File::compare`, the
filesystem effect of `install` / `install_info` / `remove`) are modelled
from the spec, and each such definition is marked `Modelled from the spec:`
in its doc comment.  The info bitset is modelled as a record of Booleans,
one per flag; `INFO_TEST(x, A | B)` becomes a disjunction of fields, which
is faithful because the flag bits are pairwise distinct.
-/

namespace Darwinup

/-- Modelled from the spec: the kind of a filesystem object.  The source
(File.h, not under src/) uses a class hierarchy Regular / Directory /
Symlink / NoEntry; the spec (§3, Design Notes) prescribes a tagged
variant.  `S_ISDIR(f->mode())` on a factory-built record is modelled as
`f.kind = .directory`: the type bits of `st_mode` live in `kind` here,
`mode` keeps only the permission bits. -/
inductive FileKind where
  | regular
  | directory
  | symlink
  | noEntry
deriving DecidableEq, Repr

/-- Modelled from the spec: the FILE_INFO flag bitset of File.h (not under
src/), one Boolean per flag (§3 of the spec: BASE_SYSTEM, NO_ENTRY,
INSTALL_DATA, ROLLBACK_DATA occupy distinct bits). -/
structure Info where
  base_system : Bool := false
  no_entry : Bool := false
  install_data : Bool := false
  rollback_data : Bool := false
deriving DecidableEq, Repr

/-- One file record, as handled by Depot.cpp: owning layer serial
(`archive`), row serial, info flags, kind, metadata, digest and path.
`digest` is `none` for directories and NO_ENTRY placeholders. -/
structure FileRec where
  serial : Nat := 0
  archive : Nat := 0
  info : Info := {}
  kind : FileKind := .regular
  mode : Nat := 0
  uid : Nat := 0
  gid : Nat := 0
  size : Nat := 0
  digest : Option Nat := none
  path : String := ""
deriving DecidableEq, Repr

/-- Modelled from the spec: the result bitset of `File::compare` (§4.1),
one Boolean per difference kind.  `FILE_INFO_IDENTICAL` is the record with
every field `false`. -/
structure DiffFlags where
  type_differs : Bool := false
  mode_differs : Bool := false
  uid_differs : Bool := false
  gid_differs : Bool := false
  data_differs : Bool := false
deriving DecidableEq, Repr

/-- The `FILE_INFO_IDENTICAL` comparison result: no difference flags. -/
def DiffFlags.identical : DiffFlags := {}

/-- Modelled from the spec: `File::compare(a, b)` (§4.1; File.cpp is not
under src/).  Returns the union of difference kinds, with the spec's
tie-breaks: two NO_ENTRY records are IDENTICAL; two directories are never
DATA-different (directories are not content-hashed); a symlink and a
regular file of matching target/content still differ on TYPE. -/
def File.compare (a b : FileRec) : DiffFlags :=
  if a.kind = .noEntry ∧ b.kind = .noEntry then DiffFlags.identical
  else
    { type_differs := a.kind != b.kind
      mode_differs := a.mode != b.mode
      uid_differs := a.uid != b.uid
      gid_differs := a.gid != b.gid
      data_differs := !(a.kind == .directory && b.kind == .directory) && (a.digest != b.digest) }

theorem File.compare_self (a : FileRec) : File.compare a a = DiffFlags.identical := by
  simp [File.compare, DiffFlags.identical]

theorem File.compare_info_left (a b : FileRec) (i : Info) :
    File.compare { a with info := i } b = File.compare a b := by
  simp [File.compare]

/-- Outcome of one entry of the three-way diff of `Depot::analyze_stage`:
the printed state character, the final `file` and `actual` records (with
the info flags the code set on them), the record used as `preceding`, the
two comparison results, and whether `actual` is inserted into the rollback
layer. -/
structure AnalyzeEntry where
  state : Char
  file : FileRec
  actual : FileRec
  preceding : FileRec
  actual_flags : DiffFlags
  preceding_flags : DiffFlags
  insertRollback : Bool
deriving DecidableEq, Repr

/-- Modelled from the spec: the `NoEntry` placeholder record the analysis
builds when nothing exists at the live path (`new NoEntry(file->path())`
in the source; the NO_ENTRY sentinel flag is §3 of the spec). -/
def NoEntry.make (path : String) : FileRec :=
  { kind := .noEntry, info := { no_entry := true }, path := path }

/-- The `preceding == NULL` branch of `Depot::analyze_stage`
(src/unnamed/part_001, lines 329-341): mark `actual` BASE_SYSTEM; when it
is neither a directory nor NO_ENTRY, additionally mark it ROLLBACK_DATA
and mark `file` INSTALL_DATA.  Returns the updated (file, actual). -/
def stage_base (file0 actual0 : FileRec) : FileRec × FileRec :=
  let a := { actual0 with info := { actual0.info with base_system := true } }
  if a.kind != FileKind.directory && !a.info.no_entry then
    ({ file0 with info := { file0.info with install_data := true } },
     { a with info := { a.info with rollback_data := true } })
  else (file0, a)

/-- The decision part of `Depot::analyze_stage` (src/unnamed/part_001,
lines 343-377): compute the state character, set INSTALL_DATA on `file`
when type or data differ from `actual`, and set ROLLBACK_DATA on `actual`
when additionally `actual` differs from `preceding` on type or data and is
not NO_ENTRY.  Returns (state, file, actual). -/
def stage_diff (file1 actual1 preceding : FileRec) : Char × FileRec × FileRec :=
  let actual_flags := File.compare file1 actual1
  let preceding_flags := File.compare actual1 preceding
  let state1 : Char :=
    if actual_flags = DiffFlags.identical ∧ preceding_flags = DiffFlags.identical then ' '
    else '?'
  if actual_flags ≠ DiffFlags.identical then
    let s : Char := if actual1.info.no_entry then 'A' else 'U'
    if actual_flags.type_differs || actual_flags.data_differs then
      let f := { file1 with info := { file1.info with install_data := true } }
      if (preceding_flags.type_differs || preceding_flags.data_differs)
          && !actual1.info.no_entry then
        (s, f, { actual1 with info := { actual1.info with rollback_data := true } })
      else (s, f, actual1)
    else (s, file1, actual1)
  else (state1, file1, actual1)

/-- One iteration of the loop of `Depot::analyze_stage`
(src/unnamed/part_001, lines 306-427).  `file0` is the record built from
the staged entry (owning layer = the visible archive), `actual?` the
record read from the live filesystem (`none` when nothing exists at the
path, in which case the code builds a `NoEntry` placeholder), `preceding?`
the result of `Depot::file_preceded_by`.  When `preceding?` is `none` the
code runs the BASE_SYSTEM branch and aliases `preceding` to `actual`.
The rollback-insert condition is the one of lines 412-413:
`(state != ' ' && preceding_flags != IDENTICAL) ||
 INFO_TEST(actual->info(), FILE_INFO_BASE_SYSTEM | FILE_INFO_ROLLBACK_DATA)`. -/
def analyze_stage_entry (file0 : FileRec) (actual? preceding? : Option FileRec) : AnalyzeEntry :=
  let actual0 : FileRec :=
    match actual? with
    | some a => a
    | none => NoEntry.make file0.path
  let fa : FileRec × FileRec :=
    if preceding?.isNone then stage_base file0 actual0 else (file0, actual0)
  let preceding := preceding?.getD fa.2
  let sfa := stage_diff fa.1 fa.2 preceding
  { state := sfa.1
    file := sfa.2.1
    actual := sfa.2.2
    preceding := preceding
    actual_flags := File.compare fa.1 fa.2
    preceding_flags := File.compare fa.2 preceding
    insertRollback :=
      (sfa.1 != ' ' && File.compare fa.2 preceding != DiffFlags.identical)
        || sfa.2.2.info.base_system || sfa.2.2.info.rollback_data }

/-- Which of the two layers of an install a record is inserted into. -/
inductive LayerTag where
  | rollback
  | visible
deriving DecidableEq, Repr

/-- The catalog insertions performed for one analyzed entry
(src/unnamed/part_001, lines 412-421): `actual` goes into the rollback
layer exactly when `insertRollback` holds, `file` goes into the visible
layer unconditionally. -/
def analyze_stage_inserts (file0 : FileRec) (actual? preceding? : Option FileRec) :
    List (LayerTag × FileRec) :=
  let r := analyze_stage_entry file0 actual? preceding?
  (if r.insertRollback then [(LayerTag.rollback, r.actual)] else []) ++ [(LayerTag.visible, r.file)]

theorem stage_diff_compare_actual (f a p : FileRec) :
    File.compare (stage_diff f a p).2.2 p = File.compare a p := by
  unfold stage_diff
  dsimp only []
  split_ifs <;> simp [File.compare_info_left]

theorem stage_diff_actual_base (f a p : FileRec) :
    (stage_diff f a p).2.2.info.base_system = a.info.base_system := by
  unfold stage_diff
  dsimp only []
  split_ifs <;> simp

theorem stage_diff_actual_no_entry (f a p : FileRec) :
    (stage_diff f a p).2.2.info.no_entry = a.info.no_entry := by
  unfold stage_diff
  dsimp only []
  split_ifs <;> simp

theorem stage_diff_actual_kind (f a p : FileRec) :
    (stage_diff f a p).2.2.kind = a.kind := by
  unfold stage_diff
  dsimp only []
  split_ifs <;> simp

theorem stage_diff_self_pred (f a : FileRec) :
    (stage_diff f a a).2.2 = a := by
  unfold stage_diff
  dsimp only []
  split_ifs <;> simp_all [File.compare_self, DiffFlags.identical]

theorem stage_diff_file_install_mono (f a p : FileRec)
    (h : f.info.install_data = true) :
    (stage_diff f a p).2.1.info.install_data = true := by
  unfold stage_diff
  dsimp only []
  split_ifs <;> simp_all

theorem analyze_preceding_flags (f : FileRec) (a? p? : Option FileRec) :
    File.compare (analyze_stage_entry f a? p?).actual (analyze_stage_entry f a? p?).preceding
      = (analyze_stage_entry f a? p?).preceding_flags := by
  unfold analyze_stage_entry
  dsimp only []
  simp [stage_diff_compare_actual]

theorem analyze_insertRollback_eq (f : FileRec) (a? p? : Option FileRec) :
    (analyze_stage_entry f a? p?).insertRollback =
      ((((analyze_stage_entry f a? p?).state != ' ')
          && ((analyze_stage_entry f a? p?).preceding_flags != DiffFlags.identical))
        || (analyze_stage_entry f a? p?).actual.info.base_system
        || (analyze_stage_entry f a? p?).actual.info.rollback_data) := rfl

theorem stage_base_base_system (f a0 : FileRec) :
    (stage_base f a0).2.info.base_system = true := by
  unfold stage_base
  dsimp only []
  split_ifs <;> simp

theorem stage_base_backup (f a0 : FileRec)
    (hk : (stage_base f a0).2.kind ≠ FileKind.directory)
    (hn : (stage_base f a0).2.info.no_entry = false) :
    (stage_base f a0).2.info.rollback_data = true ∧
      (stage_base f a0).1.info.install_data = true := by
  unfold stage_base at hk hn ⊢
  dsimp only [] at hk hn ⊢
  split_ifs at hk hn ⊢ with h
  · simp
  · simp at h
    simp at hk hn
    exact absurd (h hk) (by simp [hn])

/-- Concrete input for claim C2: a staged file differing from the live
file only in mode, with the live file identical to the catalog's
preceding record. -/
def c2file : FileRec := { archive := 2, kind := .regular, mode := 1, digest := some 5, path := "/x" }

/-- The live (and preceding) record for the C2 counterexample. -/
def c2actual : FileRec := { archive := 1, kind := .regular, mode := 0, digest := some 5, path := "/x" }

/-- C2, counterexample: the claim says `actual` is inserted into the
rollback layer whenever the computed state is not ' ' (or preceding was a
baseline).  Here the state is 'U' (metadata-only update), the preceding
record is no baseline, and yet the code does not insert `actual` into the
rollback layer, because its condition additionally requires
`preceding_flags != IDENTICAL` (src/unnamed/part_001, line 412). -/
theorem c2_counterexample :
    (analyze_stage_entry c2file (some c2actual) (some c2actual)).state = 'U' ∧
    c2actual.info.base_system = false ∧
    (analyze_stage_entry c2file (some c2actual) (some c2actual)).insertRollback = false ∧
    (LayerTag.rollback, (analyze_stage_entry c2file (some c2actual) (some c2actual)).actual) ∉
      analyze_stage_inserts c2file (some c2actual) (some c2actual) := by
  decide

/-- C2, amended: for every staged entry, the new record `file` is inserted
into the visible layer unconditionally, and `actual` is inserted into the
rollback layer exactly when the computed state is not ' ' AND the
comparison of `actual` against the preceding record is not IDENTICAL, or
the (possibly flag-updated) `actual` carries BASE_SYSTEM or ROLLBACK_DATA
(src/unnamed/part_001, lines 412-421). -/
theorem c2_insert_condition (f : FileRec) (a? p? : Option FileRec) :
    ((LayerTag.visible, (analyze_stage_entry f a? p?).file) ∈ analyze_stage_inserts f a? p?) ∧
    (((LayerTag.rollback, (analyze_stage_entry f a? p?).actual) ∈ analyze_stage_inserts f a? p?) ↔
      (((analyze_stage_entry f a? p?).state ≠ ' ' ∧
          File.compare (analyze_stage_entry f a? p?).actual (analyze_stage_entry f a? p?).preceding
            ≠ DiffFlags.identical) ∨
        (analyze_stage_entry f a? p?).actual.info.base_system = true ∨
        (analyze_stage_entry f a? p?).actual.info.rollback_data = true)) := by
  constructor
  · simp [analyze_stage_inserts]
  · rw [analyze_preceding_flags]
    simp only [analyze_stage_inserts, List.mem_append, List.mem_singleton, List.mem_ite_nil_right]
    rw [analyze_insertRollback_eq]
    simp [Prod.ext_iff]
    tauto

/-- C3: when the catalog has no preceding record for a staged entry, the
live record `actual` is marked BASE_SYSTEM and used as the synthetic
predecessor, and if `actual` is neither a directory nor NO_ENTRY it
additionally gets ROLLBACK_DATA while the new record `file` gets
INSTALL_DATA (src/unnamed/part_001, lines 329-341). -/
theorem c3_base_capture (f : FileRec) (a? : Option FileRec) :
    ((analyze_stage_entry f a? none).actual.info.base_system = true) ∧
    ((analyze_stage_entry f a? none).preceding = (analyze_stage_entry f a? none).actual) ∧
    ((analyze_stage_entry f a? none).actual.kind ≠ FileKind.directory →
      (analyze_stage_entry f a? none).actual.info.no_entry = false →
      (analyze_stage_entry f a? none).actual.info.rollback_data = true ∧
      (analyze_stage_entry f a? none).file.info.install_data = true) := by
  unfold analyze_stage_entry
  simp only [Option.isNone_none, Option.getD_none, eq_self_iff_true, if_true]
  refine ⟨?_, ?_, ?_⟩
  · rw [stage_diff_actual_base]
    exact stage_base_base_system _ _
  · rw [stage_diff_self_pred]
  · intro hk hn
    rw [stage_diff_actual_kind] at hk
    rw [stage_diff_actual_no_entry] at hn
    rw [stage_diff_self_pred]
    obtain ⟨h1, h2⟩ := stage_base_backup _ _ hk hn
    exact ⟨h1, stage_diff_file_install_mono _ _ _ h2⟩

/-- Witness for C3 at a concrete input: a staged regular file over a live
regular file unknown to the depot gets the full baseline capture. -/
theorem c3_base_capture_witness :
    (analyze_stage_entry { archive := 2, kind := .regular, mode := 420, digest := some 7, path := "/y" }
        (some { kind := .regular, mode := 416, digest := some 3, path := "/y" }) none).actual.info.rollback_data = true ∧
    (analyze_stage_entry { archive := 2, kind := .regular, mode := 420, digest := some 7, path := "/y" }
        (some { kind := .regular, mode := 416, digest := some 3, path := "/y" }) none).file.info.install_data = true :=
  (c3_base_capture { archive := 2, kind := .regular, mode := 420, digest := some 7, path := "/y" }
      (some { kind := .regular, mode := 416, digest := some 3, path := "/y" })).2.2 (by decide) (by decide)

/-- A filesystem mutation issued by `Depot::uninstall_file`:
`removeLive a` is `actual->remove()`, `installContent p` is
`preceding->install(m_archives_path, m_prefix)` and `installMeta p` is
`preceding->install_info(m_prefix)`. -/
inductive FsAction where
  | removeLive (a : FileRec)
  | installContent (p : FileRec)
  | installMeta (p : FileRec)
deriving DecidableEq, Repr

/-- Outcome of `Depot::uninstall_file` on one record: the printed state
character, the returned result (0 = success), the filesystem actions
performed, and the serials added to `files_to_remove`. -/
structure UninstallStep where
  state : Char
  res : Int
  actions : List FsAction
  toRemove : List Nat
deriving DecidableEq, Repr

/-- Chains the results of the filesystem actions the way the source
threads `res`: a later action runs only while `res == 0`, and the first
nonzero result sticks.  `io` gives the result of each action (the I/O
outcome of remove / install / install_info). -/
def run_actions (io : FsAction → Int) (acts : List FsAction) : Int :=
  acts.foldl (fun r a => if r = 0 then io a else r) 0

/-- `Depot::uninstall_file` (src/unnamed/part_001, lines 661-727), with
the catalog lookups passed in: `actual?` is `FileFactory` on the live
path (`none` when nothing exists there), `superseded?` is
`Depot::file_superseded_by`, `preceding?` is `Depot::file_preceded_by`.
BASE_SYSTEM records are never uninstalled; a live file that exists and
compares not IDENTICAL to `file` is skipped; a superseded record is left
alone; otherwise the predecessor decides removal / content restore /
metadata restore / no-op, and its serial is scheduled for deletion when
it carries NO_ENTRY or ROLLBACK_DATA but not BASE_SYSTEM.  The code
asserts `preceding != NULL`; that assertion failure is modelled as
result 1 with no effects. -/
def uninstall_file (io : FsAction → Int) (file : FileRec)
    (actual? superseded? preceding? : Option FileRec) : UninstallStep :=
  if file.info.base_system then
    { state := ' ', res := 0, actions := [], toRemove := [] }
  else
    let conflict : Bool :=
      match actual? with
      | some a => File.compare file a != DiffFlags.identical
      | none => false
    if conflict then
      { state := ' ', res := 0, actions := [], toRemove := [] }
    else
      match superseded? with
      | some _ => { state := ' ', res := 0, actions := [], toRemove := [] }
      | none =>
        match preceding? with
        | none => { state := '?', res := 1, actions := [], toRemove := [] }
        | some preceding =>
          let sa : Char × List FsAction :=
            if preceding.info.no_entry then
              ('R', match actual? with
                    | some a => [FsAction.removeLive a]
                    | none => [])
            else
              let flags := File.compare file preceding
              if flags.data_differs then
                ('U', [FsAction.installContent preceding])
              else if flags.mode_differs || flags.gid_differs || flags.uid_differs then
                (' ', [FsAction.installMeta preceding])
              else
                (' ', [])
          let res := run_actions io sa.2
          let toRemove :=
            if res = 0 ∧ (preceding.info.no_entry || preceding.info.rollback_data)
                ∧ preceding.info.base_system = false then
              [preceding.serial]
            else []
          { state := sa.1, res := res, actions := sa.2, toRemove := toRemove }

/-- The loop of `Depot::iterate_files` running `uninstall_file` over the
records of a layer (src/unnamed/part_001, lines 250-285 and 756): each
entry carries its catalog lookups; iteration stops at the first nonzero
result.  Returns the final result, the actions performed and the serials
scheduled for deletion. -/
def run_uninstall_files (io : FsAction → Int) :
    List (FileRec × Option FileRec × Option FileRec × Option FileRec) →
      Int × List FsAction × List Nat
  | [] => (0, [], [])
  | (f, a?, s?, p?) :: rest =>
    let r := uninstall_file io f a? s? p?
    if r.res = 0 then
      let t := run_uninstall_files io rest
      (t.1, r.actions ++ t.2.1, r.toRemove ++ t.2.2)
    else (r.res, r.actions, r.toRemove)

/-- C6: a record whose live file exists and compares not IDENTICAL is
skipped (no filesystem action, nothing scheduled for deletion), the
per-file result is success (0), and the iteration over the remaining
files continues unchanged (src/unnamed/part_001, lines 674-727). -/
theorem c6_conflict_skip (io : FsAction → Int) (f a : FileRec) (s? p? : Option FileRec)
    (rest : List (FileRec × Option FileRec × Option FileRec × Option FileRec))
    (h : File.compare f a ≠ DiffFlags.identical) :
    uninstall_file io f (some a) s? p? = { state := ' ', res := 0, actions := [], toRemove := [] } ∧
    run_uninstall_files io ((f, some a, s?, p?) :: rest) = run_uninstall_files io rest := by
  have h1 : uninstall_file io f (some a) s? p? =
      { state := ' ', res := 0, actions := [], toRemove := [] } := by
    unfold uninstall_file
    dsimp only []
    split_ifs <;> simp_all
  refine ⟨h1, ?_⟩
  simp [run_uninstall_files, h1]

/-- Witness for C6 at a concrete input: a live file with a different mode
is skipped with result 0. -/
theorem c6_conflict_skip_witness :
    uninstall_file (fun _ => 0) { kind := .regular, mode := 420, digest := some 1, path := "/m" }
        (some { kind := .regular, mode := 384, digest := some 1, path := "/m" }) none none =
      { state := ' ', res := 0, actions := [], toRemove := [] } :=
  (c6_conflict_skip (fun _ => 0) { kind := .regular, mode := 420, digest := some 1, path := "/m" }
      { kind := .regular, mode := 384, digest := some 1, path := "/m" } none none [] (by decide)).1

/-- The record to be uninstalled in the C4 counterexample: a regular file. -/
def c4file : FileRec := { kind := .regular, mode := 420, digest := some 9, path := "/z" }

/-- The predecessor in the C4 counterexample: a symlink whose target
hashes to the same digest, so type differs but data does not. -/
def c4pred : FileRec := { serial := 5, archive := 1, kind := .symlink, mode := 420, digest := some 9, path := "/z" }

/-- C4, counterexample: the claim says the predecessor's content is
installed whenever `Compare(f, p)` shows data OR TYPE differ.  Here only
the type differs, and the code performs no action at all (it tests only
`FILE_INFO_DATA_DIFFERS`, src/unnamed/part_001 line 697). -/
theorem c4_counterexample :
    (File.compare c4file c4pred).type_differs = true ∧
    (File.compare c4file c4pred).data_differs = false ∧
    File.compare c4file c4file = DiffFlags.identical ∧
    (uninstall_file (fun _ => 0) c4file (some c4file) none (some c4pred)).actions = [] := by
  decide

/-- C4, amended: for a non-BASE_SYSTEM record f, not superseded, whose
live file matches f, given the predecessor p (the code asserts the lookup
returns one): if p is NO_ENTRY the live file is removed; else if
`Compare(f, p)` shows DATA differs, p's content is installed; else if
mode, uid or gid differ, only p's metadata is applied; otherwise the live
file is left in place (src/unnamed/part_001, lines 687-708). -/
theorem c4_restore_logic (io : FsAction → Int) (f a p : FileRec)
    (hb : f.info.base_system = false)
    (hm : File.compare f a = DiffFlags.identical) :
    (p.info.no_entry = true →
      (uninstall_file io f (some a) none (some p)).actions = [FsAction.removeLive a] ∧
      (uninstall_file io f (some a) none (some p)).state = 'R') ∧
    (p.info.no_entry = false → (File.compare f p).data_differs = true →
      (uninstall_file io f (some a) none (some p)).actions = [FsAction.installContent p] ∧
      (uninstall_file io f (some a) none (some p)).state = 'U') ∧
    (p.info.no_entry = false → (File.compare f p).data_differs = false →
      ((File.compare f p).mode_differs || (File.compare f p).gid_differs ||
        (File.compare f p).uid_differs) = true →
      (uninstall_file io f (some a) none (some p)).actions = [FsAction.installMeta p]) ∧
    (p.info.no_entry = false → (File.compare f p).data_differs = false →
      ((File.compare f p).mode_differs || (File.compare f p).gid_differs ||
        (File.compare f p).uid_differs) = false →
      (uninstall_file io f (some a) none (some p)).actions = []) := by
  refine ⟨?_, ?_, ?_, ?_⟩
  · intro h1
    unfold uninstall_file
    simp [hb, hm, h1]
  · intro h1 h2
    unfold uninstall_file
    simp [hb, hm, h1, h2]
  · intro h1 h2 h3
    unfold uninstall_file
    simp [hb, hm, h1, h2, h3]
  · intro h1 h2 h3
    unfold uninstall_file
    simp_all [uninstall_file]

/-- Witness for C4 at a concrete input: a NO_ENTRY predecessor causes the
live file to be removed. -/
theorem c4_restore_logic_witness :
    (uninstall_file (fun _ => 0) { kind := .regular, digest := some 1, path := "/v" }
        (some { kind := .regular, digest := some 1, path := "/v" }) none
        (some { serial := 3, kind := .noEntry, info := { no_entry := true }, path := "/v" })).actions =
      [FsAction.removeLive { kind := .regular, digest := some 1, path := "/v" }] :=
  ((c4_restore_logic (fun _ => 0) { kind := .regular, digest := some 1, path := "/v" }
      { kind := .regular, digest := some 1, path := "/v" }
      { serial := 3, kind := .noEntry, info := { no_entry := true }, path := "/v" }
      rfl (by decide)).1 rfl).1

/-- The record being uninstalled in the C7 counterexample. -/
def c7file : FileRec := { kind := .regular, mode := 420, digest := some 4, path := "/w" }

/-- The predecessor in the C7 counterexample: a NO_ENTRY marker that
carries neither ROLLBACK_DATA nor BASE_SYSTEM. -/
def c7pred : FileRec := { serial := 7, archive := 1, kind := .noEntry, info := { no_entry := true }, path := "/w" }

/-- C7, counterexample: the claim says a predecessor is scheduled for
deletion exactly when it carries ROLLBACK_DATA and not BASE_SYSTEM.  Here
the predecessor carries only NO_ENTRY (no ROLLBACK_DATA), and the code
still schedules it: the test is
`INFO_TEST(info, FILE_INFO_NO_ENTRY | FILE_INFO_ROLLBACK_DATA)`
(src/unnamed/part_001, lines 709-713). -/
theorem c7_counterexample :
    c7pred.info.rollback_data = false ∧
    (uninstall_file (fun _ => 0) c7file (some c7file) none (some c7pred)).toRemove = [7] := by
  decide

/-- C7, amended: when the per-file restore succeeded, the predecessor p is
scheduled for deletion from the files table exactly when p carries
NO_ENTRY or ROLLBACK_DATA and does not carry BASE_SYSTEM
(src/unnamed/part_001, lines 709-713). -/
theorem c7_schedule_condition (io : FsAction → Int) (f a p : FileRec)
    (hb : f.info.base_system = false)
    (hm : File.compare f a = DiffFlags.identical)
    (hres : (uninstall_file io f (some a) none (some p)).res = 0) :
    ((uninstall_file io f (some a) none (some p)).toRemove = [p.serial] ↔
      ((p.info.no_entry || p.info.rollback_data) = true ∧ p.info.base_system = false)) ∧
    ((uninstall_file io f (some a) none (some p)).toRemove = [p.serial] ∨
      (uninstall_file io f (some a) none (some p)).toRemove = []) := by
  unfold uninstall_file at hres ⊢
  simp only [hb, hm] at hres ⊢
  constructor
  · constructor
    · intro h
      by_contra hc
      simp_all
    · intro h
      simp_all
  · split_ifs <;> simp_all

/-- Witness for C7 at a concrete input: a ROLLBACK_DATA, non-BASE_SYSTEM
predecessor is scheduled for deletion. -/
theorem c7_schedule_condition_witness :
    (uninstall_file (fun _ => 0) { kind := .regular, digest := some 2, path := "/q" }
        (some { kind := .regular, digest := some 2, path := "/q" }) none
        (some { serial := 9, archive := 1, kind := .regular, digest := some 8,
                info := { rollback_data := true }, path := "/q" })).toRemove = [9] :=
  ((c7_schedule_condition (fun _ => 0) { kind := .regular, digest := some 2, path := "/q" }
      { kind := .regular, digest := some 2, path := "/q" }
      { serial := 9, archive := 1, kind := .regular, digest := some 8,
        info := { rollback_data := true }, path := "/q" }
      rfl (by decide) (by decide)).1).mpr (by decide)

/-- C10: a record whose live path no longer exists is not treated as a
user modification: the superseded/predecessor logic runs (a superseded
record is left alone with result 0; otherwise the state is 'R' for a
NO_ENTRY predecessor), the removal step is skipped without any
filesystem action when there is nothing to remove, and the per-file
result is 0 (src/unnamed/part_001, lines 674-692). -/
theorem c10_missing_live (io : FsAction → Int) (f p q : FileRec)
    (hb : f.info.base_system = false) (hne : p.info.no_entry = true) :
    ((uninstall_file io f none none (some p)).state = 'R' ∧
     (uninstall_file io f none none (some p)).actions = [] ∧
     (uninstall_file io f none none (some p)).res = 0) ∧
    uninstall_file io f none (some q) (some p) =
      { state := ' ', res := 0, actions := [], toRemove := [] } := by
  constructor
  · unfold uninstall_file
    simp [hb, hne, run_actions]
  · unfold uninstall_file
    simp [hb]

/-- Witness for C10 at a concrete input: a vanished live file with a
NO_ENTRY predecessor yields result 0 and no filesystem action. -/
theorem c10_missing_live_witness :
    (uninstall_file (fun _ => 0) { kind := .regular, digest := some 6, path := "/g" } none none
        (some { serial := 4, kind := .noEntry, info := { no_entry := true }, path := "/g" })).actions = [] ∧
    (uninstall_file (fun _ => 0) { kind := .regular, digest := some 6, path := "/g" } none none
        (some { serial := 4, kind := .noEntry, info := { no_entry := true }, path := "/g" })).res = 0 :=
  ⟨((c10_missing_live (fun _ => 0) { kind := .regular, digest := some 6, path := "/g" }
      { serial := 4, kind := .noEntry, info := { no_entry := true }, path := "/g" }
      { kind := .regular, path := "/g" } rfl rfl).1).2.1,
   ((c10_missing_live (fun _ => 0) { kind := .regular, digest := some 6, path := "/g" }
      { serial := 4, kind := .noEntry, info := { no_entry := true }, path := "/g" }
      { kind := .regular, path := "/g" } rfl rfl).1).2.2⟩

/-- Modelled from the spec: the ARCHIVE_INFO_ROLLBACK flag of Archive.h
(not under src/); its numeric value is immaterial here. -/
def ARCHIVE_INFO_ROLLBACK : Nat := 1

/-- One row of the `archives` table (serial, uuid, name, info, active).
The INSERT of `Depot::insert(Archive*)` does not bind `active`, so a new
row starts with `active` false. -/
structure ArchRow where
  serial : Nat
  uuid : Nat
  name : String
  info : Nat
  active : Bool
deriving DecidableEq, Repr

/-- The `archives` table with its AUTOINCREMENT rowid counter: SQLite
assigns each inserted row a serial strictly greater than any serial ever
used (`serial INTEGER PRIMARY KEY AUTOINCREMENT`, src/unnamed/part_001
line 111). -/
structure ArchTable where
  next_serial : Nat := 1
  rows : List ArchRow := []
deriving DecidableEq, Repr

/-- `Depot::insert(Archive*)` (src/unnamed/part_001, lines 1046-1073):
insert the archive row and return the serial SQLite assigned to it. -/
def ArchTable.insert_archive (t : ArchTable) (uuid : Nat) (name : String) (info : Nat) :
    ArchTable × Nat :=
  ({ next_serial := t.next_serial + 1,
     rows := t.rows ++ [{ serial := t.next_serial, uuid := uuid, name := name, info := info, active := false }] },
   t.next_serial)

/-- The layer-creation step of `Depot::install` (src/unnamed/part_001,
lines 542-558): insert the rollback archive (the Rollback name, info
ROLLBACK) first, then the user-visible archive, so that the serial order
matches the chronology.  Returns (table, rollback serial, visible
serial). -/
def install_create_layers (t : ArchTable) (uuid_r uuid_v : Nat) (name : String) :
    ArchTable × Nat × Nat :=
  let r1 := t.insert_archive uuid_r "<Rollback>" ARCHIVE_INFO_ROLLBACK
  let r2 := r1.1.insert_archive uuid_v name 0
  (r2.1, r1.2, r2.2)

/-- C5: the rollback layer is inserted before the visible layer, so its
serial is strictly smaller; both serials exceed every serial already in
the table, and every insertion preserves the invariant that all stored
serials are below the counter — serials are assigned in strictly
ascending order across all layer insertions. -/
theorem c5_serials (t : ArchTable) (uuid_r uuid_v : Nat) (name : String)
    (hinv : ∀ r ∈ t.rows, r.serial < t.next_serial) :
    ((install_create_layers t uuid_r uuid_v name).2.1 <
      (install_create_layers t uuid_r uuid_v name).2.2) ∧
    (∀ r ∈ t.rows, r.serial < (install_create_layers t uuid_r uuid_v name).2.1) ∧
    (∀ r ∈ (install_create_layers t uuid_r uuid_v name).1.rows,
      r.serial < (install_create_layers t uuid_r uuid_v name).1.next_serial) ∧
    (∀ (t2 : ArchTable) (u : Nat) (n : String) (i : Nat),
      (∀ r ∈ t2.rows, r.serial < t2.next_serial) →
      (∀ r ∈ t2.rows, r.serial < (t2.insert_archive u n i).2) ∧
      (∀ r ∈ (t2.insert_archive u n i).1.rows,
        r.serial < (t2.insert_archive u n i).1.next_serial)) := by
  refine ⟨?_, ?_, ?_, ?_⟩
  · simp [install_create_layers, ArchTable.insert_archive]
  · intro r hr
    exact hinv r hr
  · intro r hr
    simp [install_create_layers, ArchTable.insert_archive] at hr
    rcases hr with hr | hr | hr
    · have := hinv r hr
      simp [install_create_layers, ArchTable.insert_archive]
      omega
    · simp [install_create_layers, ArchTable.insert_archive, hr]
      omega
    · simp [install_create_layers, ArchTable.insert_archive, hr]
  · intro t2 u n i h2
    refine ⟨fun r hr => h2 r hr, ?_⟩
    intro r hr
    simp [ArchTable.insert_archive] at hr
    rcases hr with hr | hr
    · have := h2 r hr
      simp [ArchTable.insert_archive]
      omega
    · simp [ArchTable.insert_archive, hr]

/-- Witness for C5 on the empty table: the rollback serial is strictly
below the visible serial. -/
theorem c5_serials_witness :
    (install_create_layers { next_serial := 1, rows := [] } 100 200 "root").2.1 <
      (install_create_layers { next_serial := 1, rows := [] } 100 200 "root").2.2 :=
  (c5_serials { next_serial := 1, rows := [] } 100 200 "root" (by simp)).1

/-- One row of the `files` table as built by `Depot::insert(Archive*,
File*)`.  The table schema has a `size` column (src/unnamed/part_001,
line 112), but the INSERT binds only archive, info, mode, uid, gid,
digest and path (line 1089), so `size` is left NULL — modelled as
`Option Nat` with `none` for NULL. -/
structure FileRow where
  archive : Nat
  info : Info
  mode : Nat
  uid : Nat
  gid : Nat
  size : Option Nat
  digest : Option Nat
  path : String
deriving DecidableEq, Repr

/-- `Depot::insert(Archive*, File*)` (src/unnamed/part_001, lines
1075-1115): build the files-table row for a record.  The path is stored
with the destination prefix stripped, keeping the prefix's trailing
slash (`relpath += prefixlen - 1`); the `size` column is never bound. -/
def insert_file_row (pre : String) (archiveSerial : Nat) (f : FileRec) : FileRow :=
  let relpath :=
    if pre.data.isPrefixOf f.path.data then String.mk (f.path.data.drop (pre.data.length - 1))
    else f.path
  { archive := archiveSerial, info := f.info, mode := f.mode, uid := f.uid, gid := f.gid,
    size := none, digest := f.digest, path := relpath }

theorem isPrefixOf_append_left (l r : List Char) : l.isPrefixOf (l ++ r) = true := by
  induction l with
  | nil => simp [List.isPrefixOf]
  | cons a as ih => simp [List.isPrefixOf, ih]

/-- Concrete record with a nonzero size for the C9 counterexample. -/
def c9file : FileRec := { kind := .regular, mode := 420, uid := 1, gid := 2, size := 42, digest := some 11, path := "/p/x" }

/-- C9, counterexample: the claim says the stored row holds the record's
size; the INSERT of `Depot::insert(Archive*, File*)` never binds the
`size` column, so a record of size 42 is stored with a NULL size. -/
theorem c9_counterexample :
    c9file.size = 42 ∧ (insert_file_row "/p/" 3 c9file).size = none ∧
    (insert_file_row "/p/" 3 c9file).size ≠ some c9file.size := by
  decide

/-- C9, amended: the stored row holds the record's info, mode, uid, gid
and digest; the path is stored prefix-stripped with the leading slash
retained; the `size` column is left unset (NULL). -/
theorem c9_insert_row (pre : String) (arch : Nat) (f : FileRec) (q rest : List Char)
    (hpre : pre.data = q ++ ['/'])
    (hpath : f.path.data = pre.data ++ rest) :
    insert_file_row pre arch f =
      { archive := arch, info := f.info, mode := f.mode, uid := f.uid, gid := f.gid,
        size := none, digest := f.digest, path := String.mk ('/' :: rest) } := by
  unfold insert_file_row
  rw [hpath, isPrefixOf_append_left]
  simp only [if_true]
  have hlen : pre.data.length - 1 = q.length := by
    simp [hpre]
  have hdrop : (pre.data ++ rest).drop (pre.data.length - 1) = '/' :: rest := by
    rw [hlen, hpre, List.append_assoc]
    exact List.drop_left q ('/' :: rest)
  rw [hdrop]

/-- Witness for C9 at a concrete input: a record under prefix "/p/" is
stored at path "/x" with all bound columns carried over and size NULL. -/
theorem c9_insert_row_witness :
    insert_file_row "/p/" 3 c9file =
      { archive := 3, info := {}, mode := 420, uid := 1, gid := 2,
        size := none, digest := some 11, path := String.mk ['/', 'x'] } :=
  c9_insert_row "/p/" 3 c9file ['/', 'p'] ['x'] (by decide) (by decide)

/-- The observable steps of `Depot::install` (src/unnamed/part_001,
lines 524-617), in source order: lock, begin transaction, the two layer
inserts, backing-directory creation, extract, stage analysis, optional
rollback-layer removal, commit (or transaction rollback on failure),
snapshot (`compact_directory`) of the visible layer, the backup phase
(one `backupFile` per ROLLBACK_DATA record copied), snapshot of the
rollback layer, the install phase (one `installFile` per INSTALL_DATA
record, `installMeta` for the rest), the activation transaction, and the
unconditional cleanup of the expanded directories. -/
inductive InstallEvent where
  | lockExclusive
  | beginTx
  | insertRollbackLayer
  | insertVisibleLayer
  | createDirs
  | extract
  | analyzeStage
  | removeRollbackLayer
  | commitTx
  | rollbackTx
  | snapshotVisible
  | backupFile (path : String)
  | snapshotRollback
  | installFile (path : String)
  | installMeta (path : String)
  | beginTx2
  | activateLayer (which : LayerTag)
  | commitTx2
  | cleanup
deriving DecidableEq, Repr

/-- Events of the backup phase. -/
def InstallEvent.isBackupEv : InstallEvent → Bool
  | .backupFile _ => true
  | _ => false

/-- Events of the install phase. -/
def InstallEvent.isInstallEv : InstallEvent → Bool
  | .installFile _ => true
  | .installMeta _ => true
  | _ => false

/-- The activation updates (`UPDATE archives SET active=1`). -/
def InstallEvent.isActivateEv : InstallEvent → Bool
  | .activateLayer _ => true
  | _ => false

/-- The running state of `Depot::install`: the current `res` value and
the trace of steps executed so far. -/
structure RunState where
  res : Int
  trace : List InstallEvent
deriving DecidableEq, Repr

/-- One `if (res == 0) res = X;` statement: the step runs (appending its
event, its result becoming `res`) only while `res` is still 0. -/
def RunState.step (s : RunState) (ev : InstallEvent) (r : Int) : RunState :=
  if s.res = 0 then { res := r, trace := s.trace ++ [ev] } else s

/-- A guarded multi-event phase (an `if (res == 0) res = iterate_files(...)`). -/
def RunState.phase (s : RunState) (evs : List InstallEvent) (r : Int) : RunState :=
  if s.res = 0 then { res := r, trace := s.trace ++ evs } else s

/-- An unconditional statement whose result is discarded. -/
def RunState.emit (s : RunState) (ev : InstallEvent) : RunState :=
  { s with trace := s.trace ++ [ev] }

/-- The outcome of every fallible step of one `Depot::install` run: the
result each call would return, the file lists of the two layers, and the
per-file results of the backup copies and installs. -/
structure InstallIO where
  lockRes : Int
  beginRes : Int
  insertRollbackRes : Int
  insertArchiveRes : Int
  extractRes : Int
  analyzeRes : Int
  rollbackFiles : Nat
  removeRes : Int
  commitRes : Int
  compactRes : Int
  rollbackFileList : List FileRec
  backupRes : String → Int
  rollbackCompactRes : Int
  visibleFileList : List FileRec
  installRes : String → Int
  begin2Res : Int
  activateRollbackRes : Int
  activateArchiveRes : Int
  commit2Res : Int

/-- The backup phase: `iterate_files(rollback, backup_file, ...)`.
`Depot::backup_file` copies only records carrying ROLLBACK_DATA
(src/unnamed/part_001, lines 457-505); iteration stops at the first
nonzero result. -/
def run_backup (io : String → Int) : List FileRec → List InstallEvent × Int
  | [] => ([], 0)
  | f :: rest =>
    if f.info.rollback_data then
      let r := io f.path
      if r = 0 then
        let t := run_backup io rest
        (InstallEvent.backupFile f.path :: t.1, t.2)
      else ([InstallEvent.backupFile f.path], r)
    else run_backup io rest

/-- The install phase: `iterate_files(archive, install_file, ...)`.
`Depot::install_file` installs content for INSTALL_DATA records and only
metadata otherwise (src/unnamed/part_001, lines 508-521); iteration stops
at the first nonzero result. -/
def run_install_phase (io : String → Int) : List FileRec → List InstallEvent × Int
  | [] => ([], 0)
  | f :: rest =>
    let ev := if f.info.install_data then InstallEvent.installFile f.path
              else InstallEvent.installMeta f.path
    let r := io f.path
    if r = 0 then
      let t := run_install_phase io rest
      (ev :: t.1, t.2)
    else ([ev], r)

/-- `Depot::install` from the exclusive lock through the stage analysis
(src/unnamed/part_001, lines 536-568). -/
def install_pre_a (io : InstallIO) : RunState :=
  let s : RunState := { res := 0, trace := [InstallEvent.lockExclusive] }
  let s := s.step .beginTx io.beginRes
  let s := s.step .insertRollbackLayer io.insertRollbackRes
  let s := s.step .insertVisibleLayer io.insertArchiveRes
  let s := s.emit .createDirs
  let s := s.step .extract io.extractRes
  s.step .analyzeStage io.analyzeRes

/-- `Depot::install` through the catalog commit and the visible-layer
snapshot (src/unnamed/part_001, lines 570-585): the empty rollback layer
is removed when the analysis put no files in it, the transaction commits
on success and rolls back on failure. -/
def install_pre (io : InstallIO) : RunState :=
  let s := install_pre_a io
  let s := if io.rollbackFiles = 0 then s.step .removeRollbackLayer io.removeRes else s
  let s := if s.res = 0 then s.step .commitTx io.commitRes else s.emit .rollbackTx
  s.step .snapshotVisible io.compactRes

/-- `Depot::install` through the backup phase and the rollback-layer
snapshot, which runs only when some file was backed up
(src/unnamed/part_001, lines 591-597). -/
def install_backup_stage (io : InstallIO) : RunState :=
  let s := install_pre io
  let b := run_backup io.backupRes io.rollbackFileList
  let s2 := s.phase b.1 b.2
  if s.res = 0 ∧ b.1 ≠ [] then s2.step .snapshotRollback io.rollbackCompactRes else s2

/-- The tail of `Depot::install`: the install phase, the activation
transaction setting active=1 on the rollback then the visible layer, and
the unconditional cleanup (src/unnamed/part_001, lines 599-611). -/
def install_post (io : InstallIO) (s : RunState) : RunState :=
  let i := run_install_phase io.installRes io.visibleFileList
  let s := s.phase i.1 i.2
  let s := s.step .beginTx2 io.begin2Res
  let s := s.step (.activateLayer .rollback) io.activateRollbackRes
  let s := s.step (.activateLayer .visible) io.activateArchiveRes
  let s := s.step .commitTx2 io.commit2Res
  s.emit .cleanup

/-- A full `Depot::install` run; a lock failure returns immediately
(src/unnamed/part_001, lines 536-537). -/
def install_run (io : InstallIO) : RunState :=
  if io.lockRes ≠ 0 then { res := io.lockRes, trace := [InstallEvent.lockExclusive] }
  else install_post io (install_backup_stage io)

-- basic lemmas
theorem step_trace (s : RunState) (ev : InstallEvent) (r : Int) :
    (s.step ev r).trace = s.trace ++ (if s.res = 0 then [ev] else []) := by
  unfold RunState.step
  split <;> simp

theorem step_res (s : RunState) (ev : InstallEvent) (r : Int) :
    (s.step ev r).res = if s.res = 0 then r else s.res := by
  unfold RunState.step
  split <;> simp

theorem step_absorb (s : RunState) (ev : InstallEvent) (r : Int) (h : s.res ≠ 0) :
    s.step ev r = s := by
  unfold RunState.step
  simp [h]

theorem phase_absorb (s : RunState) (evs : List InstallEvent) (r : Int) (h : s.res ≠ 0) :
    s.phase evs r = s := by
  unfold RunState.phase
  simp [h]

theorem emit_trace (s : RunState) (ev : InstallEvent) :
    (s.emit ev).trace = s.trace ++ [ev] := rfl

theorem emit_res (s : RunState) (ev : InstallEvent) : (s.emit ev).res = s.res := rfl

theorem step_res_zero (s : RunState) (ev : InstallEvent) (r : Int)
    (h : (s.step ev r).res = 0) : s.res = 0 ∧ r = 0 := by
  unfold RunState.step at h
  split at h <;> simp_all

theorem phase_res_zero (s : RunState) (evs : List InstallEvent) (r : Int)
    (h : (s.phase evs r).res = 0) : s.res = 0 ∧ r = 0 := by
  unfold RunState.phase at h
  split at h <;> simp_all

theorem phase_trace (s : RunState) (evs : List InstallEvent) (r : Int) :
    (s.phase evs r).trace = s.trace ++ (if s.res = 0 then evs else []) := by
  unfold RunState.phase
  split <;> simp

theorem phase_res (s : RunState) (evs : List InstallEvent) (r : Int) :
    (s.phase evs r).res = if s.res = 0 then r else s.res := by
  unfold RunState.phase
  split <;> simp

def noPhaseEv (e : InstallEvent) : Prop :=
  e.isBackupEv = false ∧ e.isInstallEv = false ∧ e.isActivateEv = false

theorem noPhase_step {s : RunState} {ev : InstallEvent} {r : Int}
    (h : ∀ e ∈ s.trace, noPhaseEv e) (hev : noPhaseEv ev) :
    ∀ e ∈ (s.step ev r).trace, noPhaseEv e := by
  intro e he
  rw [step_trace] at he
  rcases List.mem_append.1 he with h1 | h1
  · exact h e h1
  · split at h1
    · simp at h1
      subst h1
      exact hev
    · simp at h1

theorem noPhase_emit {s : RunState} {ev : InstallEvent}
    (h : ∀ e ∈ s.trace, noPhaseEv e) (hev : noPhaseEv ev) :
    ∀ e ∈ (s.emit ev).trace, noPhaseEv e := by
  intro e he
  rw [emit_trace] at he
  rcases List.mem_append.1 he with h1 | h1
  · exact h e h1
  · simp at h1
    subst h1
    exact hev

theorem install_pre_a_noPhase (io : InstallIO) : ∀ e ∈ (install_pre_a io).trace, noPhaseEv e := by
  unfold install_pre_a
  dsimp only []
  refine noPhase_step (noPhase_step (noPhase_emit (noPhase_step (noPhase_step (noPhase_step ?_
    ⟨rfl, rfl, rfl⟩) ⟨rfl, rfl, rfl⟩) ⟨rfl, rfl, rfl⟩) ⟨rfl, rfl, rfl⟩) ⟨rfl, rfl, rfl⟩) ⟨rfl, rfl, rfl⟩
  intro e he
  simp at he
  subst he
  exact ⟨rfl, rfl, rfl⟩

theorem install_pre_noPhase (io : InstallIO) : ∀ e ∈ (install_pre io).trace, noPhaseEv e := by
  unfold install_pre
  dsimp only []
  refine noPhase_step ?_ ⟨rfl, rfl, rfl⟩
  split
  · split
    · exact noPhase_step (noPhase_step (install_pre_a_noPhase io) ⟨rfl, rfl, rfl⟩) ⟨rfl, rfl, rfl⟩
    · exact noPhase_emit (noPhase_step (install_pre_a_noPhase io) ⟨rfl, rfl, rfl⟩) ⟨rfl, rfl, rfl⟩
  · split
    · exact noPhase_step (install_pre_a_noPhase io) ⟨rfl, rfl, rfl⟩
    · exact noPhase_emit (install_pre_a_noPhase io) ⟨rfl, rfl, rfl⟩

theorem install_pre_a_res_zero (io : InstallIO) (h : (install_pre_a io).res = 0) :
    io.beginRes = 0 ∧ io.insertRollbackRes = 0 ∧ io.insertArchiveRes = 0 ∧
    io.extractRes = 0 ∧ io.analyzeRes = 0 := by
  unfold install_pre_a at h
  dsimp only [] at h
  obtain ⟨h, h5⟩ := step_res_zero _ _ _ h
  obtain ⟨h, h4⟩ := step_res_zero _ _ _ h
  rw [emit_res] at h
  obtain ⟨h, h3⟩ := step_res_zero _ _ _ h
  obtain ⟨h, h2⟩ := step_res_zero _ _ _ h
  obtain ⟨h, h1⟩ := step_res_zero _ _ _ h
  exact ⟨h1, h2, h3, h4, h5⟩

theorem install_pre_res_zero (io : InstallIO) (h : (install_pre io).res = 0) :
    io.beginRes = 0 ∧ io.insertRollbackRes = 0 ∧ io.insertArchiveRes = 0 ∧
    io.extractRes = 0 ∧ io.analyzeRes = 0 ∧ io.commitRes = 0 ∧ io.compactRes = 0 := by
  unfold install_pre at h
  dsimp only [] at h
  obtain ⟨h, hcompact⟩ := step_res_zero _ _ _ h
  have key : (install_pre_a io).res = 0 ∧ io.commitRes = 0 := by
    split at h
    case isTrue hguard =>
      split at h
      case isTrue hg2 =>
        obtain ⟨h2, hcommit⟩ := step_res_zero _ _ _ h
        exact ⟨(step_res_zero _ _ _ h2).1, hcommit⟩
      case isFalse hg2 =>
        rw [emit_res] at h
        exact absurd h hg2
    case isFalse hguard =>
      split at h
      case isTrue hg2 =>
        obtain ⟨ha, hcommit⟩ := step_res_zero _ _ _ h
        exact ⟨ha, hcommit⟩
      case isFalse hg2 =>
        rw [emit_res] at h
        exact absurd h hg2
  obtain ⟨ha, hcommit⟩ := key
  obtain ⟨h1, h2, h3, h4, h5⟩ := install_pre_a_res_zero io ha
  exact ⟨h1, h2, h3, h4, h5, hcommit, hcompact⟩

theorem run_backup_events (io : String → Int) (l : List FileRec) :
    ∀ e ∈ (run_backup io l).1, ∃ p, e = InstallEvent.backupFile p := by
  induction l with
  | nil =>
    intro e he
    simp [run_backup] at he
  | cons f rest ih =>
    intro e he
    unfold run_backup at he
    dsimp only [] at he
    split_ifs at he with h1 h2
    · simp at he
      rcases he with rfl | he
      · exact ⟨_, rfl⟩
      · exact ih e he
    · simp at he
      subst he
      exact ⟨_, rfl⟩
    · exact ih e he

theorem run_install_events (io : String → Int) (l : List FileRec) :
    ∀ e ∈ (run_install_phase io l).1,
      (∃ p, e = InstallEvent.installFile p) ∨ (∃ p, e = InstallEvent.installMeta p) := by
  induction l with
  | nil =>
    intro e he
    simp [run_install_phase] at he
  | cons f rest ih =>
    intro e he
    unfold run_install_phase at he
    dsimp only [] at he
    split_ifs at he <;> simp at he <;>
      first
        | (rcases he with rfl | he
           · first
               | exact Or.inl ⟨_, rfl⟩
               | exact Or.inr ⟨_, rfl⟩
           · exact ih e he)
        | (subst he
           first
             | exact Or.inl ⟨_, rfl⟩
             | exact Or.inr ⟨_, rfl⟩)

theorem backup_stage_events (io : InstallIO) (e : InstallEvent)
    (he : e ∈ (install_backup_stage io).trace) :
    e ∈ (install_pre io).trace ∨ (∃ p, e = InstallEvent.backupFile p) ∨
      e = InstallEvent.snapshotRollback := by
  unfold install_backup_stage at he
  dsimp only [] at he
  split at he
  · rw [step_trace] at he
    rcases List.mem_append.1 he with h1 | h1
    · rw [phase_trace] at h1
      rcases List.mem_append.1 h1 with h2 | h2
      · exact Or.inl h2
      · split at h2
        · exact Or.inr (Or.inl (run_backup_events _ _ e h2))
        · simp at h2
    · split at h1
      · simp at h1
        subst h1
        exact Or.inr (Or.inr rfl)
      · simp at h1
  · rw [phase_trace] at he
    rcases List.mem_append.1 he with h2 | h2
    · exact Or.inl h2
    · split at h2
      · exact Or.inr (Or.inl (run_backup_events _ _ e h2))
      · simp at h2

theorem backup_stage_no_install (io : InstallIO) :
    ∀ e ∈ (install_backup_stage io).trace, e.isInstallEv = false ∧ e.isActivateEv = false := by
  intro e he
  rcases backup_stage_events io e he with h | ⟨p, rfl⟩ | rfl
  · have := install_pre_noPhase io e h
    exact ⟨this.2.1, this.2.2⟩
  · exact ⟨rfl, rfl⟩
  · exact ⟨rfl, rfl⟩

theorem backup_stage_absorb (io : InstallIO) (h : (install_pre io).res ≠ 0) :
    install_backup_stage io = install_pre io := by
  unfold install_backup_stage
  dsimp only []
  rw [phase_absorb _ _ _ h]
  rw [if_neg (fun hc => h hc.1)]

theorem backup_stage_res_ne (io : InstallIO)
    (hb : (run_backup io.backupRes io.rollbackFileList).2 ≠ 0) :
    (install_backup_stage io).res ≠ 0 := by
  unfold install_backup_stage
  dsimp only []
  by_cases hp : (install_pre io).res = 0
  · have hphase : ((install_pre io).phase (run_backup io.backupRes io.rollbackFileList).1
        (run_backup io.backupRes io.rollbackFileList).2).res =
        (run_backup io.backupRes io.rollbackFileList).2 := by
      rw [phase_res, if_pos hp]
    split
    · rw [step_res, hphase, if_neg hb]
      exact hb
    · rw [hphase]
      exact hb
  · rw [phase_absorb _ _ _ hp]
    rw [if_neg (fun hc => hp hc.1)]
    exact hp

theorem install_post_absorb (io : InstallIO) (s : RunState) (h : s.res ≠ 0) :
    install_post io s = s.emit InstallEvent.cleanup := by
  unfold install_post
  dsimp only []
  rw [phase_absorb _ _ _ h, step_absorb _ _ _ h, step_absorb _ _ _ h,
    step_absorb _ _ _ h, step_absorb _ _ _ h]

theorem install_post_split (io : InstallIO) (s : RunState) :
    ∃ d, (install_post io s).trace = s.trace ++ d ∧ ∀ e ∈ d, e.isBackupEv = false := by
  unfold install_post
  dsimp only []
  rw [emit_trace, step_trace, step_trace, step_trace, step_trace, phase_trace]
  simp only [List.append_assoc]
  refine ⟨_, rfl, ?_⟩
  intro e he
  simp only [List.mem_append] at he
  rcases he with h | h | h | h | h | h
  · split at h
    · rcases run_install_events _ _ e h with ⟨p, rfl⟩ | ⟨p, rfl⟩ <;> rfl
    · simp at h
  · split at h
    · simp at h
      subst h
      rfl
    · simp at h
  · split at h
    · simp at h
      subst h
      rfl
    · simp at h
  · split at h
    · simp at h
      subst h
      rfl
    · simp at h
  · split at h
    · simp at h
      subst h
      rfl
    · simp at h
  · simp at h
    subst h
    rfl

theorem install_post_no_activate (io : InstallIO) (s : RunState)
    (hi : (run_install_phase io.installRes io.visibleFileList).2 ≠ 0)
    (hs : ∀ e ∈ s.trace, e.isActivateEv = false) :
    ∀ e ∈ (install_post io s).trace, e.isActivateEv = false := by
  by_cases h0 : s.res = 0
  · have hph : (s.phase (run_install_phase io.installRes io.visibleFileList).1
        (run_install_phase io.installRes io.visibleFileList).2).res ≠ 0 := by
      rw [phase_res, if_pos h0]
      exact hi
    unfold install_post
    dsimp only []
    rw [step_absorb _ _ _ hph, step_absorb _ _ _ hph, step_absorb _ _ _ hph,
      step_absorb _ _ _ hph]
    intro e he
    rw [emit_trace] at he
    rcases List.mem_append.1 he with h | h
    · rw [phase_trace] at h
      rcases List.mem_append.1 h with h | h
      · exact hs e h
      · simp only [List.mem_ite_nil_right] at h
        rcases run_install_events _ _ e h.2 with ⟨p, rfl⟩ | ⟨p, rfl⟩ <;> rfl
    · simp at h
      subst h
      rfl
  · rw [install_post_absorb io s h0]
    intro e he
    rw [emit_trace] at he
    rcases List.mem_append.1 he with h | h
    · exact hs e h
    · simp at h
      subst h
      rfl

theorem install_run_split (io : InstallIO) :
    ∃ t1 t2, (install_run io).trace = t1 ++ t2 ∧
      (∀ e ∈ t1, e.isInstallEv = false ∧ e.isActivateEv = false) ∧
      (∀ e ∈ t2, e.isBackupEv = false) := by
  unfold install_run
  split
  · refine ⟨[InstallEvent.lockExclusive], [], by simp, ?_, by simp⟩
    intro e he
    simp at he
    subst he
    exact ⟨rfl, rfl⟩
  · obtain ⟨d, hd, hno⟩ := install_post_split io (install_backup_stage io)
    exact ⟨(install_backup_stage io).trace, d, hd, backup_stage_no_install io, hno⟩

theorem install_run_backup_fail (io : InstallIO)
    (hb : (run_backup io.backupRes io.rollbackFileList).2 ≠ 0) :
    ∀ e ∈ (install_run io).trace, e.isInstallEv = false ∧ e.isActivateEv = false := by
  unfold install_run
  split
  · intro e he
    simp at he
    subst he
    exact ⟨rfl, rfl⟩
  · have hs := backup_stage_res_ne io hb
    rw [install_post_absorb io _ hs]
    intro e he
    rw [emit_trace] at he
    rcases List.mem_append.1 he with h | h
    · exact backup_stage_no_install io e h
    · simp at h
      subst h
      exact ⟨rfl, rfl⟩

theorem install_run_install_fail (io : InstallIO)
    (hi : (run_install_phase io.installRes io.visibleFileList).2 ≠ 0) :
    ∀ e ∈ (install_run io).trace, e.isActivateEv = false := by
  unfold install_run
  split
  · intro e he
    simp at he
    subst he
    rfl
  · apply install_post_no_activate io _ hi
    intro e he
    exact (backup_stage_no_install io e he).2

theorem install_run_early_fail (io : InstallIO)
    (h : io.beginRes ≠ 0 ∨ io.insertRollbackRes ≠ 0 ∨ io.insertArchiveRes ≠ 0 ∨
      io.extractRes ≠ 0 ∨ io.analyzeRes ≠ 0 ∨ io.commitRes ≠ 0 ∨ io.compactRes ≠ 0) :
    ∀ e ∈ (install_run io).trace,
      e.isBackupEv = false ∧ e.isInstallEv = false ∧ e.isActivateEv = false := by
  have hpre : (install_pre io).res ≠ 0 := by
    intro h0
    obtain ⟨a1, a2, a3, a4, a5, a6, a7⟩ := install_pre_res_zero io h0
    rcases h with h | h | h | h | h | h | h <;> contradiction
  unfold install_run
  split
  · intro e he
    simp at he
    subst he
    exact ⟨rfl, rfl, rfl⟩
  · rw [backup_stage_absorb io hpre, install_post_absorb io _ hpre]
    intro e he
    rw [emit_trace] at he
    rcases List.mem_append.1 he with h1 | h1
    · exact install_pre_noPhase io e h1
    · simp at h1
      subst h1
      exact ⟨rfl, rfl, rfl⟩

theorem install_run_activate (io : InstallIO)
    (h : ∃ e ∈ (install_run io).trace, e.isActivateEv = true) :
    (run_backup io.backupRes io.rollbackFileList).2 = 0 ∧
    (run_install_phase io.installRes io.visibleFileList).2 = 0 := by
  obtain ⟨e, he, hact⟩ := h
  constructor
  · by_contra hb
    exact absurd hact (by simp [(install_run_backup_fail io hb e he).2])
  · by_contra hi
    exact absurd hact (by simp [install_run_install_fail io hi e he])

/-- C8: in every run of the install protocol, all backup-phase events
precede all install-phase and activation events; activation occurs only
if both the backup and the install iterations completed with result 0; a
backup failure prevents the install phase and activation, an install
failure prevents activation, and a failure in any earlier step (begin,
layer inserts, extract, analysis, commit, snapshot) prevents all three
phases from running. -/
theorem c8_backup_before_install (io : InstallIO) :
    (∃ t1 t2, (install_run io).trace = t1 ++ t2 ∧
      (∀ e ∈ t1, e.isInstallEv = false ∧ e.isActivateEv = false) ∧
      (∀ e ∈ t2, e.isBackupEv = false)) ∧
    ((∃ e ∈ (install_run io).trace, e.isActivateEv = true) →
      (run_backup io.backupRes io.rollbackFileList).2 = 0 ∧
      (run_install_phase io.installRes io.visibleFileList).2 = 0) ∧
    ((run_backup io.backupRes io.rollbackFileList).2 ≠ 0 →
      ∀ e ∈ (install_run io).trace, e.isInstallEv = false ∧ e.isActivateEv = false) ∧
    ((run_install_phase io.installRes io.visibleFileList).2 ≠ 0 →
      ∀ e ∈ (install_run io).trace, e.isActivateEv = false) ∧
    ((io.beginRes ≠ 0 ∨ io.insertRollbackRes ≠ 0 ∨ io.insertArchiveRes ≠ 0 ∨
      io.extractRes ≠ 0 ∨ io.analyzeRes ≠ 0 ∨ io.commitRes ≠ 0 ∨ io.compactRes ≠ 0) →
      ∀ e ∈ (install_run io).trace,
        e.isBackupEv = false ∧ e.isInstallEv = false ∧ e.isActivateEv = false) :=
  ⟨install_run_split io, install_run_activate io, install_run_backup_fail io,
   install_run_install_fail io, install_run_early_fail io⟩

/-- Modelled from the spec: one live filesystem object (kind, metadata
and content digest); content is summarized by its digest as in the File
records (§3 of the spec). -/
structure FsObj where
  kind : FileKind := .regular
  mode : Nat := 0
  uid : Nat := 0
  gid : Nat := 0
  digest : Option Nat := none
deriving DecidableEq, Repr

/-- The live destination tree: a finite map from absolute path to
object, as an association list. -/
abbrev FS := List (String × FsObj)

/-- Create or replace the object at a path (the effect of laying down a
file). -/
def fsSet (fs : FS) (p : String) (o : FsObj) : FS :=
  (p, o) :: fs.filter (fun e => e.1.data != p.data)

/-- Unlink the object at a path. -/
def fsDel (fs : FS) (p : String) : FS :=
  fs.filter (fun e => e.1.data != p.data)

/-- Look up the live object at a path (a `stat`). -/
def fsGet (fs : FS) (p : String) : Option FsObj :=
  (fs.find? (fun e => e.1.data == p.data)).map (fun e => e.2)

/-- Modelled from the spec: `File::install_info` — adjust mode, uid and
gid of the live object only (§4.1 InstallMetadata). -/
def fsAdjust (fs : FS) (p : String) (mode uid gid : Nat) : FS :=
  fs.map (fun e => if e.1.data == p.data then (e.1, { e.2 with mode := mode, uid := uid, gid := gid }) else e)

/-- Whether a directory is non-empty: some live path lies strictly
below it. -/
def fsHasChild (fs : FS) (p : String) : Bool :=
  fs.any (fun e => (p.data ++ ['/']).isPrefixOf e.1.data)

/-- Byte order on paths, for the catalog's `ORDER BY path`. -/
def charListLe : List Char → List Char → Bool
  | [], _ => true
  | _ :: _, [] => false
  | a :: as, b :: bs =>
    if a.toNat < b.toNat then true
    else if b.toNat < a.toNat then false
    else charListLe as bs

/-- Modelled from the spec: `FileFactory` building a record from a live
or staged object (File.cpp is not under src/). -/
def fileOfObj (arch : Nat) (p : String) (o : FsObj) : FileRec :=
  { archive := arch, kind := o.kind, mode := o.mode, uid := o.uid, gid := o.gid,
    digest := o.digest, path := p }

/-- `Depot::file_preceded_by` (src/unnamed/part_001, lines 933-942):
the record with the same path and the greatest archive serial strictly
below the record's own archive. -/
def file_preceded_by (files : List FileRec) (f : FileRec) : Option FileRec :=
  files.foldl (fun acc g =>
    if g.path.data == f.path.data && decide (g.archive < f.archive) then
      match acc with
      | none => some g
      | some h => if decide (h.archive < g.archive) then some g else some h
    else acc) none

/-- `Depot::file_superseded_by` (src/unnamed/part_001, lines 922-931):
the record with the same path and the least archive serial strictly above
the record's own archive. -/
def file_superseded_by (files : List FileRec) (f : FileRec) : Option FileRec :=
  files.foldl (fun acc g =>
    if g.path.data == f.path.data && decide (f.archive < g.archive) then
      match acc with
      | none => some g
      | some h => if decide (g.archive < h.archive) then some g else some h
    else acc) none

/-- The whole state one install/uninstall acts on: the live tree, the
catalog's files table, the per-layer backing stores (layer serial,
relative path, saved object), and the two rowid counters. -/
structure Depot1 where
  fs : FS := []
  catalogFiles : List FileRec := []
  backing : List (Nat × String × FsObj) := []
  nextArchiveSerial : Nat := 1
  nextFileSerial : Nat := 1
deriving DecidableEq, Repr

/-- Insertion step of the path-ascending sort. -/
def insertByPath (f : FileRec) : List FileRec → List FileRec
  | [] => [f]
  | g :: rest => if charListLe f.path.data g.path.data then f :: g :: rest else g :: insertByPath f rest

/-- The catalog's `ORDER BY path` on a layer's records
(src/unnamed/part_001, line 244). -/
def sortByPath (l : List FileRec) : List FileRec := l.foldr insertByPath []

/-- The loop of `Depot::analyze_stage` over the staged entries
(src/unnamed/part_001, lines 292-431): per entry, build the record, stat
the live path, query the predecessor, run the three-way diff
(`analyze_stage_entry`), and insert the resulting records — `actual`
into the rollback layer when required, `file` into the visible layer
always.  Returns the updated state and the rollback-file count. -/
def runAnalyze (rser aser : Nat) : List (String × FsObj) → Depot1 → Depot1 × Nat
  | [], d => (d, 0)
  | (p, o) :: rest, d =>
    let file0 := fileOfObj aser p o
    let actual? := (fsGet d.fs p).map (fun a => fileOfObj 0 p a)
    let preceding? := file_preceded_by d.catalogFiles file0
    let r := analyze_stage_entry file0 actual? preceding?
    let dn :=
      if r.insertRollback then
        { d with
          catalogFiles := d.catalogFiles ++ [{ r.actual with archive := rser, serial := d.nextFileSerial }],
          nextFileSerial := d.nextFileSerial + 1 }
      else d
    let d2 := { dn with
      catalogFiles := dn.catalogFiles ++ [{ r.file with serial := dn.nextFileSerial }],
      nextFileSerial := dn.nextFileSerial + 1 }
    let t := runAnalyze rser aser rest d2
    (t.1, (if r.insertRollback then 1 else 0) + t.2)

/-- The backup phase of `Depot::install`: for each ROLLBACK_DATA record
of the rollback layer, in path order, copy the live object into the
rollback layer's backing store (src/unnamed/part_001, lines 457-505 and
591-592). -/
def runBackupPhase (rser : Nat) (d : Depot1) : Depot1 :=
  (sortByPath (d.catalogFiles.filter (fun f => f.archive == rser))).foldl
    (fun d f =>
      if f.info.rollback_data then
        match fsGet d.fs f.path with
        | some o => { d with backing := d.backing ++ [(rser, f.path, o)] }
        | none => d
      else d) d

/-- The install phase of `Depot::install`: for each visible-layer record
in path order, install its content from the layer's backing store when it
carries INSTALL_DATA, else apply metadata only (src/unnamed/part_001,
lines 508-521 and 599-600; the filesystem effect of `File::install` /
`File::install_info` is modelled from the spec §4.1). -/
def runInstallPhase (aser : Nat) (d : Depot1) : Depot1 :=
  (sortByPath (d.catalogFiles.filter (fun f => f.archive == aser))).foldl
    (fun d f =>
      if f.info.install_data then
        match d.backing.find? (fun e => e.1 == aser && e.2.1.data == f.path.data) with
        | some e => { d with fs := fsSet d.fs f.path e.2.2 }
        | none => d
      else { d with fs := fsAdjust d.fs f.path f.mode f.uid f.gid }) d

/-- `Depot::install` (src/unnamed/part_001, lines 524-617) on an
already-extracted stage: create the rollback then the visible layer,
analyze the stage, drop the rollback layer if it received no files,
snapshot the stage as the visible layer's backing store, run the backup
phase, then the install phase.  Returns (state, rollback serial, visible
serial). -/
def Depot1.install (d : Depot1) (stage : List (String × FsObj)) : Depot1 × Nat × Nat :=
  let rser := d.nextArchiveSerial
  let aser := rser + 1
  let d0 := { d with nextArchiveSerial := aser + 1 }
  let t := runAnalyze rser aser stage d0
  let d1 := t.1
  let d2 := if t.2 == 0 then
      { d1 with catalogFiles := d1.catalogFiles.filter (fun f => f.archive != rser) }
    else d1
  let d3 := { d2 with backing := d2.backing ++ stage.map (fun e => (aser, e.1, e.2)) }
  let d4 := runBackupPhase rser d3
  let d5 := runInstallPhase aser d4
  (d5, rser, aser)

/-- Modelled from the spec: the filesystem effect of the actions of
`uninstall_file` (§4.1; File.cpp is not under src/).  `Remove` unlinks
files and symlinks and rmdirs directories, where failure on a non-empty
directory is non-fatal and silently ignored; restoring content copies
the predecessor's bytes from its layer's backing store. -/
def Depot1.applyAction (d : Depot1) : FsAction → Depot1
  | .removeLive a =>
    if a.kind == FileKind.directory then
      if fsHasChild d.fs a.path then d else { d with fs := fsDel d.fs a.path }
    else { d with fs := fsDel d.fs a.path }
  | .installContent p =>
    match d.backing.find? (fun e => e.1 == p.archive && e.2.1.data == p.path.data) with
    | some e => { d with fs := fsSet d.fs p.path e.2.2 }
    | none => d
  | .installMeta p => { d with fs := fsAdjust d.fs p.path p.mode p.uid p.gid }

/-- `Depot::uninstall` (src/unnamed/part_001, lines 729-779): run
`uninstall_file` over the layer's records in path order, applying the
filesystem actions as they occur, then delete the scheduled predecessor
rows and the layer's own rows. -/
def Depot1.uninstall (d : Depot1) (aser : Nat) : Depot1 :=
  let lfiles := sortByPath (d.catalogFiles.filter (fun f => f.archive == aser))
  let t := lfiles.foldl
    (fun (acc : Depot1 × List Nat) f =>
      let d := acc.1
      let actual? := (fsGet d.fs f.path).map (fun a => fileOfObj 0 f.path a)
      let superseded? := file_superseded_by d.catalogFiles f
      let preceding? := file_preceded_by d.catalogFiles f
      let r := uninstall_file (fun _ => 0) f actual? superseded? preceding?
      (r.actions.foldl Depot1.applyAction d, acc.2 ++ r.toRemove))
    (d, [])
  let da := t.1
  let db := { da with catalogFiles := da.catalogFiles.filter (fun f => !(t.2.contains f.serial)) }
  { db with catalogFiles := db.catalogFiles.filter (fun f => f.archive != aser) }

/-- The new directory of the C1 failing input. -/
def c1dirA : FsObj := { kind := .directory, mode := 493 }

/-- The new file inside that directory. -/
def c1fileB : FsObj := { kind := .regular, mode := 420, digest := some 1 }

/-- The C1 failing input: an archive creating directory `/a` with one
file `/a/b`, both new. -/
def c1stage : List (String × FsObj) := [("/a", c1dirA), ("/a/b", c1fileB)]

/-- The pristine destination: an empty tree and an empty depot. -/
def c1depot : Depot1 := {}


/-- C1: evaluation of the engine at the failing input.  Installing the
archive creates `/a` and `/a/b`; uninstalling it removes `/a/b` but
leaves `/a` behind as a stray empty directory, because the layer's
records are visited in ascending path order (parents first), the rmdir
of the then-non-empty `/a` fails silently, and nothing retries it after
`/a/b` is removed.  The destination is therefore not restored to its
original state, contradicting the round-trip claim and the repository's
own test script. -/
theorem c1_roundtrip_eval :
    c1depot.fs = [] ∧
    (Depot1.install c1depot c1stage).2.2 = 2 ∧
    (Depot1.install c1depot c1stage).1.fs = [("/a/b", c1fileB), ("/a", c1dirA)] ∧
    (Depot1.uninstall (Depot1.install c1depot c1stage).1 2).fs = [("/a", c1dirA)] ∧
    (Depot1.uninstall (Depot1.install c1depot c1stage).1 2).fs ≠ c1depot.fs := by
  exact ⟨rfl, rfl, by decide, by decide, by decide⟩

end Darwinup
